import Mathlib

/-!
Shallow embedding of `extvlantblsim.py`, a simulator of the ITU-T G.988
Extended VLAN Tagging Operation table: VLAN tags, Ethernet frames, tagging
rules (`VlanTagOp`), the rule table (`VlanTagOpTable`), and the
match/transform engine.  Machine integers of the source are modelled as
`Nat` (all values involved are non-negative and no arithmetic overflows).
Python exceptions raised during validation are modelled with
`Except FieldErr`; the `None` result of a dropped frame with `Option`.
Input lines are modelled as token lists: a token is `some n` when the
Python token is a digit string denoting `n`, and `none` otherwise.
-/

namespace ExtVlan

/-- Propositional equality of `Except` values is decidable componentwise. -/
instance {e a : Type} [DecidableEq e] [DecidableEq a] : DecidableEq (Except e a) := fun x y =>
  match x, y with
  | .ok u, .ok v =>
    if h : u = v then .isTrue (by rw [h])
    else .isFalse (by intro hc; cases hc; exact h rfl)
  | .error u, .error v =>
    if h : u = v then .isTrue (by rw [h])
    else .isFalse (by intro hc; cases hc; exact h rfl)
  | .ok _, .error _ => .isFalse (by intro hc; cases hc)
  | .error _, .ok _ => .isFalse (by intro hc; cases hc)

/-- A validation error carrying the offending field's name and value,
modelling the `ValueError` messages of the source. -/
structure FieldErr where
  fieldName : String
  value : Nat
deriving DecidableEq

/-- One 802.1Q/802.1ad VLAN tag (`VlanTag` dataclass). -/
structure VlanTag where
  vid : Nat
  pcp : Nat
  tpid : Nat
  dei : Nat
deriving DecidableEq

/-- `VlanTag.__post_init__`: construction fails unless `0 <= vid <= 4094`
and `0 <= pcp <= 7`. -/
def mkVlanTag (vid pcp tpid dei : Nat) : Except FieldErr VlanTag :=
  if ¬ vid ≤ 4094 then .error ⟨"vid", vid⟩
  else if ¬ pcp ≤ 7 then .error ⟨"pcp", pcp⟩
  else .ok ⟨vid, pcp, tpid, dei⟩

/-- A tag is well-formed when it satisfies `VlanTag.__post_init__`. -/
def VlanTag.wf (t : VlanTag) : Bool :=
  t.vid ≤ 4094 && t.pcp ≤ 7

/-- `EthFrame`: an ordered stack of VLAN tags (outermost first). -/
structure EthFrame where
  tags : List VlanTag
deriving DecidableEq

def EthFrame.wf (f : EthFrame) : Bool :=
  f.tags.all VlanTag.wf

def EthFrame.is_raw (f : EthFrame) : Bool :=
  f.tags.length == 0

def EthFrame.is_single_tagged (f : EthFrame) : Bool :=
  f.tags.length == 1

def EthFrame.is_double_tagged (f : EthFrame) : Bool :=
  2 ≤ f.tags.length

/-- `EthFrame.inner_tag`: `tags[-1]`, the last tag, or absent. -/
def EthFrame.inner_tag (f : EthFrame) : Option VlanTag :=
  f.tags.getLast?

/-- `EthFrame.outer_tag`: `tags[-2] if len(tags) >= 2 else None`, i.e. the
second-to-last tag, or absent. -/
def EthFrame.outer_tag (f : EthFrame) : Option VlanTag :=
  f.tags.dropLast.getLast?

/-- `VlanTagOp`: 8 filter fields followed by 7 treatment fields, in the
declaration order of the source dataclass. -/
structure VlanTagOp where
  f_out_prio : Nat
  f_out_vid : Nat
  f_out_tpid : Nat
  f_in_prio : Nat
  f_in_vid : Nat
  f_in_tpid : Nat
  f_ext_crit : Nat
  f_eth_type : Nat
  tag_rem : Nat
  t_out_prio : Nat
  t_out_vid : Nat
  t_out_tpid : Nat
  t_in_prio : Nat
  t_in_vid : Nat
  t_in_tpid : Nat
deriving DecidableEq

/-! Per-field domains, as in `VlanTagOp.__post_init__`. -/

def fPrioOk (v : Nat) : Bool := v ≤ 8 || v == 14 || v == 15
def tPrioOk (v : Nat) : Bool := v ≤ 10 || v == 15
def fVidOk (v : Nat) : Bool := v ≤ 4094 || v == 4096
def tVidOk (v : Nat) : Bool := v ≤ 4094 || v == 4096 || v == 4097
def fTpidOk (v : Nat) : Bool := v == 0 || v == 4 || v == 5 || v == 6 || v == 7
def tTpidOk (v : Nat) : Bool := v ≤ 7
def extCritOk (v : Nat) : Bool := v ≤ 2
def ethTypeOk (v : Nat) : Bool := v ≤ 5
def tagRemOk (v : Nat) : Bool := v ≤ 3

/-- `VlanTagOp.__post_init__`: check each field against its domain, in
dataclass declaration order, failing at the first violation with an error
naming the field and its value. -/
def VlanTagOp.validate (op : VlanTagOp) : Except FieldErr VlanTagOp :=
  if ¬ fPrioOk op.f_out_prio then .error ⟨"f_out_prio", op.f_out_prio⟩
  else if ¬ fVidOk op.f_out_vid then .error ⟨"f_out_vid", op.f_out_vid⟩
  else if ¬ fTpidOk op.f_out_tpid then .error ⟨"f_out_tpid", op.f_out_tpid⟩
  else if ¬ fPrioOk op.f_in_prio then .error ⟨"f_in_prio", op.f_in_prio⟩
  else if ¬ fVidOk op.f_in_vid then .error ⟨"f_in_vid", op.f_in_vid⟩
  else if ¬ fTpidOk op.f_in_tpid then .error ⟨"f_in_tpid", op.f_in_tpid⟩
  else if ¬ extCritOk op.f_ext_crit then .error ⟨"f_ext_crit", op.f_ext_crit⟩
  else if ¬ ethTypeOk op.f_eth_type then .error ⟨"f_eth_type", op.f_eth_type⟩
  else if ¬ tagRemOk op.tag_rem then .error ⟨"tag_rem", op.tag_rem⟩
  else if ¬ tPrioOk op.t_out_prio then .error ⟨"t_out_prio", op.t_out_prio⟩
  else if ¬ tVidOk op.t_out_vid then .error ⟨"t_out_vid", op.t_out_vid⟩
  else if ¬ tTpidOk op.t_out_tpid then .error ⟨"t_out_tpid", op.t_out_tpid⟩
  else if ¬ tPrioOk op.t_in_prio then .error ⟨"t_in_prio", op.t_in_prio⟩
  else if ¬ tVidOk op.t_in_vid then .error ⟨"t_in_vid", op.t_in_vid⟩
  else if ¬ tTpidOk op.t_in_tpid then .error ⟨"t_in_tpid", op.t_in_tpid⟩
  else .ok op

/-- `VlanTagOp(...)`: construct from the 15 fields and validate. -/
def mkVlanTagOp (a b c d e f g h i j k l m n o : Nat) : Except FieldErr VlanTagOp :=
  VlanTagOp.validate ⟨a, b, c, d, e, f, g, h, i, j, k, l, m, n, o⟩

/-! Classification predicates of `VlanTagOp`. -/

def VlanTagOp.is_untagged_filter (op : VlanTagOp) : Bool :=
  op.f_out_prio == 15 && op.f_in_prio == 15

def VlanTagOp.is_single_tagged_filter (op : VlanTagOp) : Bool :=
  op.f_out_prio == 15 && op.f_in_prio != 15

def VlanTagOp.is_double_tagged_filter (op : VlanTagOp) : Bool :=
  op.f_out_prio != 15

def VlanTagOp.is_untagged_default (op : VlanTagOp) : Bool :=
  op.f_out_prio == 15 && op.f_out_vid == 4096 &&
  op.f_in_prio == 15 && op.f_in_vid == 4096 && op.f_ext_crit == 0

def VlanTagOp.is_single_tagged_default (op : VlanTagOp) : Bool :=
  op.f_out_prio == 15 && op.f_out_vid == 4096 &&
  op.f_in_prio == 14 && op.f_in_vid == 4096 && op.f_ext_crit == 0

def VlanTagOp.is_double_tagged_default (op : VlanTagOp) : Bool :=
  op.f_out_prio == 14 && op.f_out_vid == 4096 &&
  op.f_in_prio == 14 && op.f_in_vid == 4096 && op.f_ext_crit == 0

def VlanTagOp.is_default (op : VlanTagOp) : Bool :=
  op.is_untagged_default || op.is_single_tagged_default || op.is_double_tagged_default

def VlanTagOp.is_transparent_treatment (op : VlanTagOp) : Bool :=
  if op.tag_rem != 0 then false
  else if op.is_untagged_filter then
    op.t_out_prio == 15 && op.t_in_prio == 15
  else if op.is_single_tagged_filter then
    op.t_out_prio == 15 && op.t_in_prio == 8 && op.t_in_vid == 4096 && op.t_in_tpid == 0
  else if op.is_double_tagged_filter then
    op.t_out_prio == 9 && op.t_out_vid == 4097 && op.t_out_tpid == 1 &&
    op.t_in_prio == 8 && op.t_in_vid == 4096 && op.t_in_tpid == 0
  else false

def VlanTagOp.is_drop_treatment (op : VlanTagOp) : Bool :=
  op.tag_rem == 3

/-- The inner helper `check_tpid` of `matches_filter` (its `match` arms are
disjoint literals, rendered as an if-chain). -/
def check_tpid (tpid_dei : Nat) (tag : VlanTag) (input_tpid : Nat) : Bool :=
  if tpid_dei == 0 then true
  else if tpid_dei == 4 then tag.tpid == 0x8100
  else if tpid_dei == 5 then tag.tpid == input_tpid
  else if tpid_dei == 6 then tag.tpid == input_tpid && tag.dei == 0
  else if tpid_dei == 7 then tag.tpid == input_tpid && tag.dei == 1
  else false

/-- The per-tag checks of `matches_filter` (TPID/DEI, then priority, then
VID, each an early `return False` in the source; the same three checks are
written once in the source for the outer tag and once for the inner tag,
factored here into a helper applied to either field triple). -/
def tagChecks (fprio fvid ftpid : Nat) (tag : VlanTag) (input_tpid : Nat) : Bool :=
  if ¬ check_tpid ftpid tag input_tpid then false
  else if fprio < 8 && fprio != tag.pcp then false
  else if ¬ (fvid == 4096 || fvid == tag.vid) then false
  else true

/-- `VlanTagOp.matches_filter`. -/
def VlanTagOp.matches_filter (op : VlanTagOp) (frame : EthFrame)
    (input_tpid : Nat) : Bool :=
  if frame.is_raw && !op.is_untagged_filter then false
  else if frame.is_single_tagged && !op.is_single_tagged_filter then false
  else if frame.is_double_tagged && !op.is_double_tagged_filter then false
  else if frame.is_double_tagged &&
      !(match frame.outer_tag with
        | some tag => tagChecks op.f_out_prio op.f_out_vid op.f_out_tpid tag input_tpid
        | none => false) then false
  else if !frame.is_raw &&
      !(match frame.inner_tag with
        | some tag => tagChecks op.f_in_prio op.f_in_vid op.f_in_tpid tag input_tpid
        | none => false) then false
  else true

/-- `transform`'s helper `resolve_pcp`. -/
def resolve_pcp (frame : EthFrame) (prio : Nat) : Nat :=
  if prio ≤ 7 then prio
  else if prio == 8 then
    match frame.inner_tag with
    | some t => t.pcp
    | none => 0
  else if prio == 9 then
    match frame.outer_tag with
    | some t => t.pcp
    | none => 0
  else 0

/-- `transform`'s helper `resolve_vid`. -/
def resolve_vid (frame : EthFrame) (vid : Nat) : Nat :=
  if vid ≤ 4094 then vid
  else if vid == 4096 then
    match frame.inner_tag with
    | some t => t.vid
    | none => 0
  else if vid == 4097 then
    match frame.outer_tag with
    | some t => t.vid
    | none => 0
  else 0

/-- `transform`'s helper `resolve_tpid_dei` (undefined code 5 falls into the
catch-all arm, as in the source). -/
def resolve_tpid_dei (frame : EthFrame) (output_tpid : Nat) (tpid_dei : Nat) :
    Nat × Nat :=
  if tpid_dei == 0 then
    match frame.inner_tag with
    | some t => (t.tpid, t.dei)
    | none => (0x8100, 0)
  else if tpid_dei == 1 then
    match frame.outer_tag with
    | some t => (t.tpid, t.dei)
    | none => (0x8100, 0)
  else if tpid_dei == 2 then
    (output_tpid, match frame.inner_tag with | some t => t.dei | none => 0)
  else if tpid_dei == 3 then
    (output_tpid, match frame.outer_tag with | some t => t.dei | none => 0)
  else if tpid_dei == 4 then (0x8100, 0)
  else if tpid_dei == 6 then (output_tpid, 0)
  else if tpid_dei == 7 then (output_tpid, 1)
  else (output_tpid, 0)

/-- The tag-accumulation part of `transform`: append a synthesized outer tag
when `t_out_prio != 15`, then a synthesized inner tag when `t_in_prio != 15`,
propagating any `VlanTag` validation error. -/
def VlanTagOp.synthTags (op : VlanTagOp) (frame : EthFrame)
    (output_tpid : Nat) : Except FieldErr (List VlanTag) := do
  let ts1 ←
    if op.t_out_prio != 15 then
      let td := resolve_tpid_dei frame output_tpid op.t_out_tpid
      (mkVlanTag (resolve_vid frame op.t_out_vid)
        (resolve_pcp frame op.t_out_prio) td.1 td.2).map (fun t => [t])
    else .ok []
  if op.t_in_prio != 15 then
    let td := resolve_tpid_dei frame output_tpid op.t_in_tpid
    (mkVlanTag (resolve_vid frame op.t_in_vid)
      (resolve_pcp frame op.t_in_prio) td.1 td.2).map (fun t => ts1 ++ [t])
  else .ok ts1

/-- `VlanTagOp.transform`: `None` (here `Option.none`) when dropping,
otherwise the synthesized tags, or — when no tag was synthesized — the
original stack with the first `tag_rem` tags removed
(`frame.tags[self.tag_rem:]`). -/
def VlanTagOp.transform (op : VlanTagOp) (frame : EthFrame)
    (output_tpid : Nat) : Except FieldErr (Option EthFrame) :=
  if op.is_drop_treatment then .ok none
  else
    (op.synthTags frame output_tpid).map fun tags =>
      some ⟨if tags.isEmpty then frame.tags.drop op.tag_rem else tags⟩

/-- Replace a rule's `tag_rem` field, keeping every other field. -/
def setTagRem (op : VlanTagOp) (r : Nat) : VlanTagOp :=
  { op with tag_rem := r }

/-- The list of tags `transform` synthesizes when every `VlanTag`
construction succeeds: the outer tag (when `t_out_prio != 15`) followed by
the inner tag (when `t_in_prio != 15`), each with resolved fields. -/
def synthList (op : VlanTagOp) (frame : EthFrame) (output_tpid : Nat) :
    List VlanTag :=
  (if op.t_out_prio != 15 then
    [⟨resolve_vid frame op.t_out_vid, resolve_pcp frame op.t_out_prio,
      (resolve_tpid_dei frame output_tpid op.t_out_tpid).1,
      (resolve_tpid_dei frame output_tpid op.t_out_tpid).2⟩]
  else []) ++
  (if op.t_in_prio != 15 then
    [⟨resolve_vid frame op.t_in_vid, resolve_pcp frame op.t_in_prio,
      (resolve_tpid_dei frame output_tpid op.t_in_tpid).1,
      (resolve_tpid_dei frame output_tpid op.t_in_tpid).2⟩]
  else [])

/-! ### Table construction -/

/-- `astuple(op)[:8]`: the 8 filter fields in declaration order. -/
def VlanTagOp.filterTuple (op : VlanTagOp) : List Nat :=
  [op.f_out_prio, op.f_out_vid, op.f_out_tpid, op.f_in_prio,
   op.f_in_vid, op.f_in_tpid, op.f_ext_crit, op.f_eth_type]

/-- The sort key `(1 if op.is_default else 0, astuple(op)[:8])`, flattened
into one list compared lexicographically (Python compares the pair
lexicographically, and all filter tuples have equal length 8, so the
flattened comparison agrees). -/
def VlanTagOp.sortKey (op : VlanTagOp) : List Nat :=
  (if op.is_default then 1 else 0) :: op.filterTuple

/-- Boolean lexicographic `≤` on `List Nat`, agreeing with Python tuple
comparison on equal-length tuples. -/
def lexLE : List Nat → List Nat → Bool
  | [], _ => true
  | _ :: _, [] => false
  | a :: as, b :: bs =>
    if a < b then true
    else if b < a then false
    else lexLE as bs

def keyLE (x y : VlanTagOp) : Bool :=
  lexLE x.sortKey y.sortKey

/-- Insert a rule into an already-sorted list, after every element whose key
is `≤` its own key (so the sort below is stable). -/
def insertOp (x : VlanTagOp) : List VlanTagOp → List VlanTagOp
  | [] => [x]
  | y :: ys => if keyLE y x then y :: insertOp x ys else x :: y :: ys

/-- Stable sort by `sortKey`, extensionally equal to Python's stable
`sorted(ops, key=...)`. -/
def sortOps (l : List VlanTagOp) : List VlanTagOp :=
  l.foldl (fun acc x => insertOp x acc) []

/-- `VlanTagOpTable`: the ordered rule list. -/
structure VlanTagOpTable where
  ops : List VlanTagOp
deriving DecidableEq

/-- `VlanTagOpTable.__init__`: sort the given rules into precedence order
(default rules last, then ascending filter tuple, stable). -/
def VlanTagOpTable.init (l : List VlanTagOp) : VlanTagOpTable :=
  ⟨sortOps l⟩

/-- A raw input token: `some n` for a decimal-digit token of value `n`
(`x.isdigit()` holds), `none` for any other token. -/
abbrev Token := Option Nat

/-- All tokens numeric, collected in order. -/
def seqTokens : List Token → Option (List Nat)
  | [] => some []
  | none :: _ => none
  | some v :: rest => (seqTokens rest).map (fun vs => v :: vs)

/-- The shape test of `from_stream`: exactly 15 tokens, all decimal. -/
def lineInts (line : List Token) : Option (List Nat) :=
  if line.length == 15 then seqTokens line else none

/-- The OLT delete-marker treatment half: `(3, 15, 8191, 7, 15, 8191, 7)`. -/
def deleteMarker : List Nat := [3, 15, 8191, 7, 15, 8191, 7]

/-- One parsed row of `from_stream`: swap `vals[6]` and `vals[7]`
("Fix order to match bit-stream") and construct the validated `VlanTagOp`.
Only called with 15 values; the catch-all arm is unreachable. -/
def rowToOp (vals : List Nat) : Except FieldErr VlanTagOp :=
  match vals with
  | [v0, v1, v2, v3, v4, v5, v6, v7, v8, v9, v10, v11, v12, v13, v14] =>
    mkVlanTagOp v0 v1 v2 v3 v4 v5 v7 v6 v8 v9 v10 v11 v12 v13 v14
  | _ => .error ⟨"row", 0⟩

/-- The parsing loop of `from_stream`: skip lines that fail the shape test,
skip rows whose treatment half (`vals[8:]`) is the delete marker, and
otherwise construct the rule, propagating any validation error. -/
def parseLines : List (List Token) → Except FieldErr (List VlanTagOp)
  | [] => .ok []
  | line :: rest =>
    match lineInts line with
    | none => parseLines rest
    | some vals =>
      if vals.drop 8 == deleteMarker then parseLines rest
      else
        match rowToOp vals with
        | .error e => .error e
        | .ok op => (parseLines rest).map (fun ops => op :: ops)

/-- `VlanTagOpTable.from_stream`: parse every line, then build (and sort)
the table. -/
def VlanTagOpTable.from_stream (lines : List (List Token)) :
    Except FieldErr VlanTagOpTable :=
  (parseLines lines).map VlanTagOpTable.init

/-- The lookup loop of `process_frame` over the rule list, with the
source's default TPID contexts (`0x8100`). -/
def processList (frame : EthFrame) : List VlanTagOp → Except FieldErr (Option EthFrame)
  | [] => .ok none
  | op :: rest =>
    if op.matches_filter frame 0x8100 then op.transform frame 0x8100
    else processList frame rest

/-- `VlanTagOpTable.process_frame`: first matching rule's transform, else
no output. -/
def VlanTagOpTable.process_frame (t : VlanTagOpTable) (frame : EthFrame) :
    Except FieldErr (Option EthFrame) :=
  processList frame t.ops

/-! ### Index-instrumented copy of the sort, used to express stability -/

/-- A rule tagged with its original input position. -/
abbrev IdxOp := Nat × VlanTagOp

/-- `insertOp`, lifted to index-tagged rules; the comparison looks only at
the rule, never at the index. -/
def insertOpI (x : IdxOp) : List IdxOp → List IdxOp
  | [] => [x]
  | y :: ys => if keyLE y.2 x.2 then y :: insertOpI x ys else x :: y :: ys

/-- `sortOps`, lifted to index-tagged rules. -/
def sortOpsI (l : List IdxOp) : List IdxOp :=
  l.foldl (fun acc x => insertOpI x acc) []

/-- Output order required of a stable sort: an earlier output element either
has a strictly smaller key, or an equal key and a smaller input index. -/
def stableRel (x y : IdxOp) : Prop :=
  lexLE y.2.sortKey x.2.sortKey = false ∨
  (x.2.sortKey = y.2.sortKey ∧ x.1 < y.1)

/-! ### Spec-side reading of filter matching (for the refinement claim) -/

/-- Spec wording: a priority filter field 0-7 requires equality with the
tag's PCP; any value `≥ 8` matches any priority. -/
def prioMatches (fprio : Nat) (tag : VlanTag) : Prop :=
  8 ≤ fprio ∨ fprio = tag.pcp

/-- Spec wording: a VID filter field of 4096 matches any VID; any other
value requires exact equality. -/
def vidMatches (fvid : Nat) (tag : VlanTag) : Prop :=
  fvid = 4096 ∨ fvid = tag.vid

/-- Spec wording of the TPID/DEI filter enumeration: 0 always matches;
4 requires TPID 0x8100; 5 requires TPID equal to the input TPID context;
6 requires TPID equal to input context and DEI 0; 7 requires TPID equal to
input context and DEI 1; any other value never matches. -/
def tpidMatches (ftpid : Nat) (tag : VlanTag) (input_tpid : Nat) : Prop :=
  ftpid = 0 ∨
  (ftpid = 4 ∧ tag.tpid = 0x8100) ∨
  (ftpid = 5 ∧ tag.tpid = input_tpid) ∨
  (ftpid = 6 ∧ tag.tpid = input_tpid ∧ tag.dei = 0) ∨
  (ftpid = 7 ∧ tag.tpid = input_tpid ∧ tag.dei = 1)

/-- Spec wording: the frame's tag-count class corresponds to the rule's
filter class. -/
def classMatches (op : VlanTagOp) (f : EthFrame) : Prop :=
  (f.is_raw = true ∧ op.is_untagged_filter = true) ∨
  (f.is_single_tagged = true ∧ op.is_single_tagged_filter = true) ∨
  (f.is_double_tagged = true ∧ op.is_double_tagged_filter = true)

/-- Spec-side matching predicate, assembled from the spec's words: the
class correspondence, the outer-tag checks for a double-tagged frame, and
the inner-tag checks for any tagged frame. -/
def matchesSpec (op : VlanTagOp) (f : EthFrame) (input_tpid : Nat) : Prop :=
  classMatches op f ∧
  (∀ t, f.is_double_tagged = true → f.outer_tag = some t →
    prioMatches op.f_out_prio t ∧ vidMatches op.f_out_vid t ∧
    tpidMatches op.f_out_tpid t input_tpid) ∧
  (∀ t, f.is_raw = false → f.inner_tag = some t →
    prioMatches op.f_in_prio t ∧ vidMatches op.f_in_vid t ∧
    tpidMatches op.f_in_tpid t input_tpid)

/-! ### Field-table view of validation (for the error-identification claim) -/

/-- Look a field of a rule up by its dataclass name. -/
def fieldGet (op : VlanTagOp) : String → Option Nat
  | "f_out_prio" => some op.f_out_prio
  | "f_out_vid" => some op.f_out_vid
  | "f_out_tpid" => some op.f_out_tpid
  | "f_in_prio" => some op.f_in_prio
  | "f_in_vid" => some op.f_in_vid
  | "f_in_tpid" => some op.f_in_tpid
  | "f_ext_crit" => some op.f_ext_crit
  | "f_eth_type" => some op.f_eth_type
  | "tag_rem" => some op.tag_rem
  | "t_out_prio" => some op.t_out_prio
  | "t_out_vid" => some op.t_out_vid
  | "t_out_tpid" => some op.t_out_tpid
  | "t_in_prio" => some op.t_in_prio
  | "t_in_vid" => some op.t_in_vid
  | "t_in_tpid" => some op.t_in_tpid
  | _ => none

/-- The per-field domain, keyed by the dataclass field name. -/
def fieldDomainOk : String → Nat → Bool
  | "f_out_prio", v => fPrioOk v
  | "f_out_vid", v => fVidOk v
  | "f_out_tpid", v => fTpidOk v
  | "f_in_prio", v => fPrioOk v
  | "f_in_vid", v => fVidOk v
  | "f_in_tpid", v => fTpidOk v
  | "f_ext_crit", v => extCritOk v
  | "f_eth_type", v => ethTypeOk v
  | "tag_rem", v => tagRemOk v
  | "t_out_prio", v => tPrioOk v
  | "t_out_vid", v => tVidOk v
  | "t_out_tpid", v => tTpidOk v
  | "t_in_prio", v => tPrioOk v
  | "t_in_vid", v => tVidOk v
  | "t_in_tpid", v => tTpidOk v
  | _, _ => false

/-- The conjunction of all 15 domain checks of `__post_init__`. -/
def VlanTagOp.allOk (op : VlanTagOp) : Bool :=
  fPrioOk op.f_out_prio && fVidOk op.f_out_vid && fTpidOk op.f_out_tpid &&
  fPrioOk op.f_in_prio && fVidOk op.f_in_vid && fTpidOk op.f_in_tpid &&
  extCritOk op.f_ext_crit && ethTypeOk op.f_eth_type && tagRemOk op.tag_rem &&
  tPrioOk op.t_out_prio && tVidOk op.t_out_vid && tTpidOk op.t_out_tpid &&
  tPrioOk op.t_in_prio && tVidOk op.t_in_vid && tTpidOk op.t_in_tpid

/-- The treatment half of a rule, in field order. -/
def VlanTagOp.treatTuple (op : VlanTagOp) : List Nat :=
  [op.tag_rem, op.t_out_prio, op.t_out_vid, op.t_out_tpid,
   op.t_in_prio, op.t_in_vid, op.t_in_tpid]

/-! ## Lemmas about the lexicographic comparison -/

theorem lexLE_refl (a : List Nat) : lexLE a a = true := by
  induction a with
  | nil => rfl
  | cons x xs ih => simp [lexLE, Nat.lt_irrefl, ih]

theorem lexLE_cons_iff (x y : Nat) (xs ys : List Nat) :
    lexLE (x :: xs) (y :: ys) = true ↔ x < y ∨ (x = y ∧ lexLE xs ys = true) := by
  simp only [lexLE]
  split_ifs with h1 h2
  · simp [h1]
  · simp; omega
  · have hxy : x = y := by omega
    simp [hxy]

theorem lexLE_total (a b : List Nat) : lexLE a b = true ∨ lexLE b a = true := by
  induction a generalizing b with
  | nil => left; rfl
  | cons x xs ih =>
    cases b with
    | nil => right; rfl
    | cons y ys =>
      rcases Nat.lt_trichotomy x y with h | h | h
      · left; rw [lexLE_cons_iff]; exact Or.inl h
      · subst h
        rcases ih ys with h2 | h2
        · left; rw [lexLE_cons_iff]; exact Or.inr ⟨rfl, h2⟩
        · right; rw [lexLE_cons_iff]; exact Or.inr ⟨rfl, h2⟩
      · right; rw [lexLE_cons_iff]; exact Or.inl h

theorem lexLE_trans : ∀ {a b c : List Nat},
    lexLE a b = true → lexLE b c = true → lexLE a c = true
  | [], _, _, _, _ => rfl
  | _ :: _, [], _, h1, _ => by simp [lexLE] at h1
  | _ :: _, _ :: _, [], _, h2 => by simp [lexLE] at h2
  | x :: xs, y :: ys, z :: zs, h1, h2 => by
    rw [lexLE_cons_iff] at h1 h2 ⊢
    rcases h1 with h1 | ⟨rfl, h1⟩
    · rcases h2 with h2 | ⟨rfl, _⟩
      · exact Or.inl (Nat.lt_trans h1 h2)
      · exact Or.inl h1
    · rcases h2 with h2 | ⟨rfl, h2⟩
      · exact Or.inl h2
      · exact Or.inr ⟨rfl, lexLE_trans h1 h2⟩

theorem lexLE_antisymm : ∀ {a b : List Nat},
    lexLE a b = true → lexLE b a = true → a = b
  | [], [], _, _ => rfl
  | [], _ :: _, _, h2 => by simp [lexLE] at h2
  | _ :: _, [], h1, _ => by simp [lexLE] at h1
  | x :: xs, y :: ys, h1, h2 => by
    rw [lexLE_cons_iff] at h1 h2
    have hxy : x = y := by omega
    subst hxy
    rcases h1 with h1 | ⟨_, h1⟩
    · omega
    · rcases h2 with h2 | ⟨_, h2⟩
      · omega
      · rw [lexLE_antisymm h1 h2]

theorem lexLE_of_not_lexLE {a b : List Nat} (h : lexLE a b = false) :
    lexLE b a = true := by
  rcases lexLE_total a b with h1 | h1
  · rw [h] at h1; cases h1
  · exact h1

/-! ## Lemmas about the stable insertion sort -/

theorem mem_insertOpI {x z : IdxOp} : ∀ {l : List IdxOp},
    z ∈ insertOpI x l ↔ z = x ∨ z ∈ l
  | [] => by simp [insertOpI]
  | y :: ys => by
    simp only [insertOpI]
    split_ifs with h
    · rw [List.mem_cons, mem_insertOpI, List.mem_cons]
      tauto
    · simp [List.mem_cons]

theorem insertOpI_perm (x : IdxOp) : ∀ (l : List IdxOp),
    (insertOpI x l).Perm (x :: l)
  | [] => List.Perm.refl _
  | y :: ys => by
    simp only [insertOpI]
    split_ifs with h
    · exact ((insertOpI_perm x ys).cons y).trans (List.Perm.swap x y ys)
    · exact List.Perm.refl _

theorem insertOpI_pairwise {x : IdxOp} : ∀ {l : List IdxOp},
    l.Pairwise stableRel → (∀ y ∈ l, y.1 < x.1) →
    (insertOpI x l).Pairwise stableRel
  | [], _, _ => by simp [insertOpI]
  | y :: ys, hp, hidx => by
    rcases List.pairwise_cons.mp hp with ⟨hy, hys⟩
    simp only [insertOpI]
    split_ifs with h
    · refine List.pairwise_cons.mpr ⟨?_, insertOpI_pairwise hys
        (fun z hz => hidx z (List.mem_cons_of_mem _ hz))⟩
      intro z hz
      rcases mem_insertOpI.mp hz with rfl | hz'
      · by_cases keq : y.2.sortKey = z.2.sortKey
        · exact Or.inr ⟨keq, hidx y (List.mem_cons_self y ys)⟩
        · left
          cases hc : lexLE z.2.sortKey y.2.sortKey
          · rfl
          · exact absurd (lexLE_antisymm h hc) keq
      · exact hy z hz'
    · have hyx : lexLE y.2.sortKey x.2.sortKey = false := by
        simpa [keyLE] using h
      refine List.pairwise_cons.mpr ⟨?_, hp⟩
      intro z hz
      rcases List.mem_cons.mp hz with rfl | hz'
      · exact Or.inl hyx
      · rcases hy z hz' with hzy | ⟨keq, _⟩
        · left
          cases hc : lexLE z.2.sortKey x.2.sortKey
          · rfl
          · have hxy : lexLE x.2.sortKey y.2.sortKey = true := lexLE_of_not_lexLE hyx
            have : lexLE z.2.sortKey y.2.sortKey = true := lexLE_trans hc hxy
            rw [this] at hzy; cases hzy
        · left; rw [← keq]; exact hyx

theorem foldl_insertOpI_pairwise : ∀ (l acc : List IdxOp),
    acc.Pairwise stableRel → (∀ a ∈ acc, ∀ b ∈ l, a.1 < b.1) →
    l.Pairwise (fun a b => a.1 < b.1) →
    (l.foldl (fun acc x => insertOpI x acc) acc).Pairwise stableRel
  | [], acc, hacc, _, _ => hacc
  | x :: rest, acc, hacc, hcross, hl => by
    simp only [List.foldl_cons]
    rcases List.pairwise_cons.mp hl with ⟨hx, hrest⟩
    refine foldl_insertOpI_pairwise rest _
      (insertOpI_pairwise hacc (fun y hy => hcross y hy x (List.mem_cons_self x rest)))
      ?_ hrest
    intro a ha b hb
    rcases mem_insertOpI.mp ha with rfl | ha'
    · exact hx b hb
    · exact hcross a ha' b (List.mem_cons_of_mem _ hb)

theorem foldl_insertOpI_perm : ∀ (l acc : List IdxOp),
    (l.foldl (fun acc x => insertOpI x acc) acc).Perm (acc ++ l)
  | [], acc => by simp
  | x :: rest, acc => by
    simp only [List.foldl_cons]
    exact ((foldl_insertOpI_perm rest (insertOpI x acc)).trans
      (((insertOpI_perm x acc).append_right rest).trans List.perm_middle.symm))

theorem mem_enumFrom_le {b : Nat × VlanTagOp} :
    ∀ (n : Nat) (l : List VlanTagOp), b ∈ List.enumFrom n l → n ≤ b.1
  | _, [], h => by simp at h
  | n, x :: xs, h => by
    simp only [List.enumFrom, List.mem_cons] at h
    rcases h with rfl | h
    · exact Nat.le_refl n
    · exact Nat.le_of_succ_le (mem_enumFrom_le (n + 1) xs h)

theorem enumFrom_pairwise_idx :
    ∀ (n : Nat) (l : List VlanTagOp),
      (List.enumFrom n l).Pairwise (fun a b => a.1 < b.1)
  | _, [] => List.Pairwise.nil
  | n, x :: xs => by
    simp only [List.enumFrom]
    refine List.pairwise_cons.mpr ⟨?_, enumFrom_pairwise_idx (n + 1) xs⟩
    intro b hb
    exact Nat.lt_of_succ_le (mem_enumFrom_le (n + 1) xs hb)

theorem sortOpsI_pairwise (l : List IdxOp)
    (hl : l.Pairwise (fun a b => a.1 < b.1)) :
    (sortOpsI l).Pairwise stableRel :=
  foldl_insertOpI_pairwise l [] List.Pairwise.nil (by simp) hl

theorem sortOpsI_perm (l : List IdxOp) : (sortOpsI l).Perm l := by
  simpa using foldl_insertOpI_perm l []

theorem insertOpI_map_snd (x : IdxOp) : ∀ (l : List IdxOp),
    (insertOpI x l).map Prod.snd = insertOp x.2 (l.map Prod.snd)
  | [] => rfl
  | y :: ys => by
    simp only [insertOpI, insertOp, List.map_cons]
    split_ifs with h
    · rw [List.map_cons, insertOpI_map_snd x ys]
    · rfl

theorem foldl_insertOpI_map_snd : ∀ (l acc : List IdxOp),
    (l.foldl (fun a x => insertOpI x a) acc).map Prod.snd =
      (l.map Prod.snd).foldl (fun a x => insertOp x a) (acc.map Prod.snd)
  | [], _ => rfl
  | x :: rest, acc => by
    simp only [List.foldl_cons, List.map_cons]
    rw [foldl_insertOpI_map_snd rest (insertOpI x acc), insertOpI_map_snd]

theorem sortOpsI_map_snd (l : List VlanTagOp) :
    (sortOpsI l.enum).map Prod.snd = sortOps l := by
  unfold sortOpsI sortOps
  rw [foldl_insertOpI_map_snd]
  simp [List.enum_map_snd]

theorem sortOps_perm (l : List VlanTagOp) : (sortOps l).Perm l := by
  have h := (sortOpsI_perm l.enum).map Prod.snd
  rw [sortOpsI_map_snd] at h
  simpa [List.enum_map_snd] using h

theorem sortOps_sorted_key (l : List VlanTagOp) :
    (sortOps l).Pairwise (fun a b => lexLE a.sortKey b.sortKey = true) := by
  have h := sortOpsI_pairwise l.enum (by simpa [List.enum] using enumFrom_pairwise_idx 0 l)
  rw [← sortOpsI_map_snd]
  rw [List.pairwise_map]
  refine h.imp ?_
  intro a b hab
  rcases hab with hab | ⟨keq, _⟩
  · exact lexLE_of_not_lexLE hab
  · rw [keq]; exact lexLE_refl _

theorem key_le_default_imp {a b : VlanTagOp}
    (h : lexLE a.sortKey b.sortKey = true) (ha : a.is_default = true) :
    b.is_default = true := by
  cases hb : b.is_default
  · rw [VlanTagOp.sortKey, VlanTagOp.sortKey, ha, hb] at h
    simp only [if_true, Bool.false_eq_true, if_false] at h
    rw [lexLE_cons_iff] at h
    omega
  · rfl

theorem key_le_nondefault_filter {a b : VlanTagOp}
    (h : lexLE a.sortKey b.sortKey = true)
    (ha : a.is_default = false) (hb : b.is_default = false) :
    lexLE a.filterTuple b.filterTuple = true := by
  rw [VlanTagOp.sortKey, VlanTagOp.sortKey, ha, hb] at h
  simp only [Bool.false_eq_true, if_false] at h
  rw [lexLE_cons_iff] at h
  rcases h with h | ⟨_, h⟩
  · omega
  · exact h

/-- C2: in every constructed table, default rules come after all non-default
rules; non-default rules are in ascending lexicographic order of their
8-field filter tuple; and the sort is stable: the index-instrumented run of
the same sort, whose projection is exactly the constructed table, is a
permutation of the enumerated input in which equal keys appear in ascending
input order. -/
theorem table_sorted_default_last_filter_ascending_stable (l : List VlanTagOp) :
    ((VlanTagOpTable.init l).ops.Pairwise
      (fun a b => a.is_default = true → b.is_default = true))
    ∧ (((VlanTagOpTable.init l).ops.filter (fun op => !op.is_default)).Pairwise
      (fun a b => lexLE a.filterTuple b.filterTuple = true))
    ∧ (sortOpsI l.enum).map Prod.snd = (VlanTagOpTable.init l).ops
    ∧ (sortOpsI l.enum).Pairwise stableRel
    ∧ (sortOpsI l.enum).Perm l.enum := by
  have hs := sortOps_sorted_key l
  refine ⟨?_, ?_, ?_, ?_, ?_⟩
  · exact hs.imp (fun h ha => key_le_default_imp h ha)
  · refine List.Pairwise.imp_of_mem ?_ ((hs.filter _))
    intro a b ha hb h
    rw [List.mem_filter] at ha hb
    exact key_le_nondefault_filter h
      (by simpa using ha.2) (by simpa using hb.2)
  · exact sortOpsI_map_snd l
  · exact sortOpsI_pairwise l.enum (by simpa [List.enum] using enumFrom_pairwise_idx 0 l)
  · exact sortOpsI_perm l.enum

/-! ## Lemmas about parsing and validation -/

theorem seqTokens_map_some : ∀ (l : List Nat), seqTokens (l.map some) = some l
  | [] => rfl
  | x :: xs => by simp [seqTokens, seqTokens_map_some xs]

theorem validate_ok_inv {op op' : VlanTagOp} (h : op.validate = .ok op') :
    op' = op ∧ op.allOk = true := by
  unfold VlanTagOp.validate at h
  by_cases c1 : fPrioOk op.f_out_prio = true
  case neg => rw [if_pos c1] at h; cases h
  rw [if_neg (not_not_intro c1)] at h
  by_cases c2 : fVidOk op.f_out_vid = true
  case neg => rw [if_pos c2] at h; cases h
  rw [if_neg (not_not_intro c2)] at h
  by_cases c3 : fTpidOk op.f_out_tpid = true
  case neg => rw [if_pos c3] at h; cases h
  rw [if_neg (not_not_intro c3)] at h
  by_cases c4 : fPrioOk op.f_in_prio = true
  case neg => rw [if_pos c4] at h; cases h
  rw [if_neg (not_not_intro c4)] at h
  by_cases c5 : fVidOk op.f_in_vid = true
  case neg => rw [if_pos c5] at h; cases h
  rw [if_neg (not_not_intro c5)] at h
  by_cases c6 : fTpidOk op.f_in_tpid = true
  case neg => rw [if_pos c6] at h; cases h
  rw [if_neg (not_not_intro c6)] at h
  by_cases c7 : extCritOk op.f_ext_crit = true
  case neg => rw [if_pos c7] at h; cases h
  rw [if_neg (not_not_intro c7)] at h
  by_cases c8 : ethTypeOk op.f_eth_type = true
  case neg => rw [if_pos c8] at h; cases h
  rw [if_neg (not_not_intro c8)] at h
  by_cases c9 : tagRemOk op.tag_rem = true
  case neg => rw [if_pos c9] at h; cases h
  rw [if_neg (not_not_intro c9)] at h
  by_cases c10 : tPrioOk op.t_out_prio = true
  case neg => rw [if_pos c10] at h; cases h
  rw [if_neg (not_not_intro c10)] at h
  by_cases c11 : tVidOk op.t_out_vid = true
  case neg => rw [if_pos c11] at h; cases h
  rw [if_neg (not_not_intro c11)] at h
  by_cases c12 : tTpidOk op.t_out_tpid = true
  case neg => rw [if_pos c12] at h; cases h
  rw [if_neg (not_not_intro c12)] at h
  by_cases c13 : tPrioOk op.t_in_prio = true
  case neg => rw [if_pos c13] at h; cases h
  rw [if_neg (not_not_intro c13)] at h
  by_cases c14 : tVidOk op.t_in_vid = true
  case neg => rw [if_pos c14] at h; cases h
  rw [if_neg (not_not_intro c14)] at h
  by_cases c15 : tTpidOk op.t_in_tpid = true
  case neg => rw [if_pos c15] at h; cases h
  rw [if_neg (not_not_intro c15)] at h
  cases h
  exact ⟨rfl, by
    simp [VlanTagOp.allOk, c1, c2, c3, c4, c5, c6, c7, c8, c9, c10, c11, c12,
      c13, c14, c15]⟩

theorem validate_ok_of_allOk {op : VlanTagOp} (hall : op.allOk = true) :
    op.validate = .ok op := by
  simp only [VlanTagOp.allOk, Bool.and_eq_true, and_assoc] at hall
  obtain ⟨h1, h2, h3, h4, h5, h6, h7, h8, h9, h10, h11, h12, h13, h14, h15⟩ := hall
  unfold VlanTagOp.validate
  rw [if_neg (not_not_intro h1), if_neg (not_not_intro h2),
    if_neg (not_not_intro h3), if_neg (not_not_intro h4),
    if_neg (not_not_intro h5), if_neg (not_not_intro h6),
    if_neg (not_not_intro h7), if_neg (not_not_intro h8),
    if_neg (not_not_intro h9), if_neg (not_not_intro h10),
    if_neg (not_not_intro h11), if_neg (not_not_intro h12),
    if_neg (not_not_intro h13), if_neg (not_not_intro h14),
    if_neg (not_not_intro h15)]

theorem validate_ok_iff {op op' : VlanTagOp} :
    op.validate = .ok op' ↔ op' = op ∧ op.allOk = true := by
  constructor
  · exact validate_ok_inv
  · rintro ⟨rfl, hall⟩
    exact validate_ok_of_allOk hall

theorem rowToOp_ok_allOk {vals : List Nat} {op : VlanTagOp}
    (h : rowToOp vals = .ok op) : op.allOk = true := by
  unfold rowToOp at h
  split at h
  · unfold mkVlanTagOp at h
    obtain ⟨heq, hall⟩ := validate_ok_inv h
    rw [heq]
    exact hall
  · cases h

theorem parseLines_ok_allOk : ∀ (lines : List (List Token)) (ops : List VlanTagOp),
    parseLines lines = .ok ops → ∀ op ∈ ops, op.allOk = true
  | [], ops, h, op, hop => by
    simp only [parseLines] at h
    cases h
    simp at hop
  | line :: rest, ops, h, op, hop => by
    simp only [parseLines] at h
    split at h
    · exact parseLines_ok_allOk rest ops h op hop
    · split_ifs at h with hdel
      · exact parseLines_ok_allOk rest ops h op hop
      · rename_i vals hline
        split at h
        · cases h
        · rename_i op0 hrow
          cases hrest : parseLines rest with
          | error e2 => rw [hrest] at h; cases h
          | ok ops2 =>
            rw [hrest] at h
            simp only [Except.map] at h
            cases h
            rcases List.mem_cons.mp hop with rfl | hop2
            · exact rowToOp_ok_allOk hrow
            · exact parseLines_ok_allOk rest ops2 hrest op hop2

theorem allOk_t_out_vid {op : VlanTagOp} (h : op.allOk = true) :
    tVidOk op.t_out_vid = true := by
  unfold VlanTagOp.allOk at h
  simp only [Bool.and_eq_true] at h
  exact h.1.1.1.1.2

/-- C6: the delete-marker check. A well-shaped row whose last 7 values are
`(3, 15, 8191, 7, 15, 8191, 7)` is discarded before construction (the whole
stream parses exactly as if the row were absent, so it neither enters the
table nor triggers a validation failure), and no rule whose treatment half
equals that tuple ever appears in a table built by `from_stream`. -/
theorem delete_marker_row_discarded_before_validation :
    (∀ (pre : List Nat) (rest : List (List Token)), pre.length = 8 →
      VlanTagOpTable.from_stream ((pre.map some ++ deleteMarker.map some) :: rest) =
        VlanTagOpTable.from_stream rest)
    ∧ (∀ (lines : List (List Token)) (tbl : VlanTagOpTable),
      VlanTagOpTable.from_stream lines = .ok tbl →
      ∀ op ∈ tbl.ops, op.treatTuple ≠ deleteMarker) := by
  constructor
  · intro pre rest hlen
    unfold VlanTagOpTable.from_stream
    have h1 : lineInts (pre.map some ++ deleteMarker.map some) =
        some (pre ++ deleteMarker) := by
      unfold lineInts
      rw [List.length_append, List.length_map, List.length_map, hlen]
      rw [← List.map_append, seqTokens_map_some]
      simp [deleteMarker]
    have h2 : (pre ++ deleteMarker).drop 8 = deleteMarker := by
      have h3 := List.drop_left pre deleteMarker
      rwa [hlen] at h3
    simp only [parseLines, h1, h2]
    simp
  · intro lines tbl h op hop heq
    unfold VlanTagOpTable.from_stream at h
    cases hp : parseLines lines with
    | error e => rw [hp] at h; cases h
    | ok ops =>
      rw [hp] at h
      simp only [Except.map] at h
      cases h
      have hmem : op ∈ ops := (sortOps_perm ops).mem_iff.mp hop
      have hall := parseLines_ok_allOk lines ops hp op hmem
      have hvid := allOk_t_out_vid hall
      have h8191 : op.t_out_vid = 8191 := by
        have := heq
        simp only [VlanTagOp.treatTuple, deleteMarker, List.cons.injEq] at this
        exact this.2.2.1
      rw [h8191] at hvid
      simp [tVidOk] at hvid

/-- C8(c) helper shape: a validation error names a real field whose current
value is the reported one, and that value is outside the field's domain. -/
theorem validate_error_identifies_field {op : VlanTagOp} {e : FieldErr}
    (h : op.validate = .error e) :
    fieldGet op e.fieldName = some e.value ∧
      fieldDomainOk e.fieldName e.value = false := by
  unfold VlanTagOp.validate at h
  by_cases c1 : fPrioOk op.f_out_prio = true
  case neg => rw [if_pos c1] at h; cases h; exact ⟨rfl, Bool.eq_false_iff.mpr c1⟩
  rw [if_neg (not_not_intro c1)] at h
  by_cases c2 : fVidOk op.f_out_vid = true
  case neg => rw [if_pos c2] at h; cases h; exact ⟨rfl, Bool.eq_false_iff.mpr c2⟩
  rw [if_neg (not_not_intro c2)] at h
  by_cases c3 : fTpidOk op.f_out_tpid = true
  case neg => rw [if_pos c3] at h; cases h; exact ⟨rfl, Bool.eq_false_iff.mpr c3⟩
  rw [if_neg (not_not_intro c3)] at h
  by_cases c4 : fPrioOk op.f_in_prio = true
  case neg => rw [if_pos c4] at h; cases h; exact ⟨rfl, Bool.eq_false_iff.mpr c4⟩
  rw [if_neg (not_not_intro c4)] at h
  by_cases c5 : fVidOk op.f_in_vid = true
  case neg => rw [if_pos c5] at h; cases h; exact ⟨rfl, Bool.eq_false_iff.mpr c5⟩
  rw [if_neg (not_not_intro c5)] at h
  by_cases c6 : fTpidOk op.f_in_tpid = true
  case neg => rw [if_pos c6] at h; cases h; exact ⟨rfl, Bool.eq_false_iff.mpr c6⟩
  rw [if_neg (not_not_intro c6)] at h
  by_cases c7 : extCritOk op.f_ext_crit = true
  case neg => rw [if_pos c7] at h; cases h; exact ⟨rfl, Bool.eq_false_iff.mpr c7⟩
  rw [if_neg (not_not_intro c7)] at h
  by_cases c8 : ethTypeOk op.f_eth_type = true
  case neg => rw [if_pos c8] at h; cases h; exact ⟨rfl, Bool.eq_false_iff.mpr c8⟩
  rw [if_neg (not_not_intro c8)] at h
  by_cases c9 : tagRemOk op.tag_rem = true
  case neg => rw [if_pos c9] at h; cases h; exact ⟨rfl, Bool.eq_false_iff.mpr c9⟩
  rw [if_neg (not_not_intro c9)] at h
  by_cases c10 : tPrioOk op.t_out_prio = true
  case neg => rw [if_pos c10] at h; cases h; exact ⟨rfl, Bool.eq_false_iff.mpr c10⟩
  rw [if_neg (not_not_intro c10)] at h
  by_cases c11 : tVidOk op.t_out_vid = true
  case neg => rw [if_pos c11] at h; cases h; exact ⟨rfl, Bool.eq_false_iff.mpr c11⟩
  rw [if_neg (not_not_intro c11)] at h
  by_cases c12 : tTpidOk op.t_out_tpid = true
  case neg => rw [if_pos c12] at h; cases h; exact ⟨rfl, Bool.eq_false_iff.mpr c12⟩
  rw [if_neg (not_not_intro c12)] at h
  by_cases c13 : tPrioOk op.t_in_prio = true
  case neg => rw [if_pos c13] at h; cases h; exact ⟨rfl, Bool.eq_false_iff.mpr c13⟩
  rw [if_neg (not_not_intro c13)] at h
  by_cases c14 : tVidOk op.t_in_vid = true
  case neg => rw [if_pos c14] at h; cases h; exact ⟨rfl, Bool.eq_false_iff.mpr c14⟩
  rw [if_neg (not_not_intro c14)] at h
  by_cases c15 : tTpidOk op.t_in_tpid = true
  case neg => rw [if_pos c15] at h; cases h; exact ⟨rfl, Bool.eq_false_iff.mpr c15⟩
  rw [if_neg (not_not_intro c15)] at h
  cases h

/-- C6 witness: the delete-marker skip and the never-in-table property at
concrete inputs. -/
theorem delete_marker_row_discarded_witness :
    VlanTagOpTable.from_stream
        ((([0, 0, 0, 0, 0, 0, 0, 0] : List Nat).map some ++
          deleteMarker.map some) :: []) = VlanTagOpTable.from_stream []
    ∧ VlanTagOp.treatTuple
        ⟨15, 4096, 0, 15, 4096, 0, 2, 1, 0, 15, 4096, 0, 15, 4096, 0⟩ ≠
        deleteMarker := by
  refine ⟨delete_marker_row_discarded_before_validation.1
      [0, 0, 0, 0, 0, 0, 0, 0] [] (by decide),
    delete_marker_row_discarded_before_validation.2
      [[some 15, some 4096, some 0, some 15, some 4096, some 0, some 1, some 2,
        some 0, some 15, some 4096, some 0, some 15, some 4096, some 0]]
      (VlanTagOpTable.init
        [⟨15, 4096, 0, 15, 4096, 0, 2, 1, 0, 15, 4096, 0, 15, 4096, 0⟩])
      (by decide) _ (by decide)⟩

/-- C1 (counterexample to the no-swap reading): parsing the single
well-shaped row whose tokens at 0-based indices 6 and 7 are 1 and 2 yields a
rule with `f_ext_crit = 2` and `f_eth_type = 1` — the parser swaps the two
tokens, so token index 6 does not become `f_ext_crit`. -/
theorem from_stream_no_swap_counterexample :
    (VlanTagOpTable.from_stream [[some 15, some 4096, some 0, some 15,
        some 4096, some 0, some 1, some 2, some 0, some 15, some 4096, some 0,
        some 15, some 4096, some 0]]).map
      (fun t => t.ops.map (fun op => (op.f_ext_crit, op.f_eth_type))) =
      .ok [(2, 1)]
    ∧ ((2 : Nat), (1 : Nat)) ≠ ((1 : Nat), (2 : Nat)) := by
  constructor
  · decide
  · decide

/-- C1 (amended): for every well-shaped, non-delete-marker row whose
construction succeeds, `from_stream` builds the table from the single rule
whose fields are the 15 tokens in §3 order EXCEPT that the tokens at 0-based
indices 6 and 7 are swapped: token 7 becomes `f_ext_crit` and token 6
becomes `f_eth_type`. -/
theorem from_stream_swaps_tokens_6_and_7
    (v0 v1 v2 v3 v4 v5 v6 v7 v8 v9 v10 v11 v12 v13 v14 : Nat) (op : VlanTagOp)
    (hnd : [v8, v9, v10, v11, v12, v13, v14] ≠ deleteMarker)
    (hok : mkVlanTagOp v0 v1 v2 v3 v4 v5 v7 v6 v8 v9 v10 v11 v12 v13 v14 = .ok op) :
    VlanTagOpTable.from_stream [[some v0, some v1, some v2, some v3, some v4,
      some v5, some v6, some v7, some v8, some v9, some v10, some v11, some v12,
      some v13, some v14]] = .ok (VlanTagOpTable.init [op])
    ∧ op.f_out_prio = v0 ∧ op.f_out_vid = v1 ∧ op.f_out_tpid = v2
    ∧ op.f_in_prio = v3 ∧ op.f_in_vid = v4 ∧ op.f_in_tpid = v5
    ∧ op.f_ext_crit = v7 ∧ op.f_eth_type = v6
    ∧ op.tag_rem = v8 ∧ op.t_out_prio = v9 ∧ op.t_out_vid = v10
    ∧ op.t_out_tpid = v11 ∧ op.t_in_prio = v12 ∧ op.t_in_vid = v13
    ∧ op.t_in_tpid = v14 := by
  have hok2 : VlanTagOp.validate ⟨v0, v1, v2, v3, v4, v5, v7, v6, v8, v9, v10,
      v11, v12, v13, v14⟩ = .ok op := hok
  obtain ⟨heq, _⟩ := validate_ok_inv hok2
  have hrow : rowToOp [v0, v1, v2, v3, v4, v5, v6, v7, v8, v9, v10, v11, v12,
      v13, v14] = .ok op := hok
  have hstream : VlanTagOpTable.from_stream [[some v0, some v1, some v2,
      some v3, some v4, some v5, some v6, some v7, some v8, some v9, some v10,
      some v11, some v12, some v13, some v14]] = .ok (VlanTagOpTable.init [op]) := by
    unfold VlanTagOpTable.from_stream
    have hpl : parseLines [[some v0, some v1, some v2, some v3, some v4,
        some v5, some v6, some v7, some v8, some v9, some v10, some v11,
        some v12, some v13, some v14]] = .ok [op] := by
      show (if ([v8, v9, v10, v11, v12, v13, v14] == deleteMarker) = true
          then parseLines []
          else match rowToOp [v0, v1, v2, v3, v4, v5, v6, v7, v8, v9, v10, v11,
            v12, v13, v14] with
            | .error e => .error e
            | .ok op2 => (parseLines []).map (fun ops => op2 :: ops)) = .ok [op]
      rw [if_neg (by simpa using hnd), hrow]
      rfl
    rw [hpl]
    rfl
  subst heq
  exact ⟨hstream, rfl, rfl, rfl, rfl, rfl, rfl, rfl, rfl, rfl, rfl, rfl, rfl,
    rfl, rfl, rfl⟩

/-- C1 witness: the amended theorem at the concrete row of the
counterexample. -/
theorem from_stream_swaps_tokens_6_and_7_witness :
    VlanTagOpTable.from_stream [[some 15, some 4096, some 0, some 15,
        some 4096, some 0, some 1, some 2, some 0, some 15, some 4096, some 0,
        some 15, some 4096, some 0]] =
      .ok (VlanTagOpTable.init
        [⟨15, 4096, 0, 15, 4096, 0, 2, 1, 0, 15, 4096, 0, 15, 4096, 0⟩])
    ∧ VlanTagOp.f_ext_crit
        ⟨15, 4096, 0, 15, 4096, 0, 2, 1, 0, 15, 4096, 0, 15, 4096, 0⟩ = 2
    ∧ VlanTagOp.f_eth_type
        ⟨15, 4096, 0, 15, 4096, 0, 2, 1, 0, 15, 4096, 0, 15, 4096, 0⟩ = 1 := by
  have h := from_stream_swaps_tokens_6_and_7 15 4096 0 15 4096 0 1 2 0 15 4096
    0 15 4096 0 ⟨15, 4096, 0, 15, 4096, 0, 2, 1, 0, 15, 4096, 0, 15, 4096, 0⟩
    (by decide) (by decide)
  exact ⟨h.1, h.2.2.2.2.2.2.2.1, h.2.2.2.2.2.2.2.2.1⟩

theorem parseLines_append_ok : ∀ (pre : List (List Token))
    (ops : List VlanTagOp) (rest : List (List Token)),
    parseLines pre = .ok ops →
    parseLines (pre ++ rest) = (parseLines rest).map (fun more => ops ++ more)
  | [], ops, rest, h => by
    simp only [parseLines] at h
    cases h
    simp only [List.nil_append]
    cases hr : parseLines rest with
    | error e => rfl
    | ok l => simp [Except.map]
  | line :: pre2, ops, rest, h => by
    cases hline : lineInts line with
    | none =>
      simp only [parseLines, List.cons_append, hline] at h ⊢
      exact parseLines_append_ok pre2 ops rest h
    | some vals =>
      simp only [parseLines, List.cons_append, hline] at h ⊢
      split_ifs at h ⊢ with hdel
      · exact parseLines_append_ok pre2 ops rest h
      · cases hrow : rowToOp vals with
        | error e =>
          simp only [hrow] at h
          cases h
        | ok op0 =>
          simp only [hrow] at h ⊢
          cases hp2 : parseLines pre2 with
          | error e2 =>
            rw [hp2] at h
            simp [Except.map] at h
          | ok ops2 =>
            rw [hp2] at h
            simp only [Except.map] at h
            cases h
            simp only [List.append_eq]
            rw [parseLines_append_ok pre2 ops2 rest hp2]
            cases hr : parseLines rest with
            | error e3 => rfl
            | ok l => simp [Except.map]

/-- C8: a line that is not exactly 15 decimal tokens is silently skipped
(parsing proceeds as if the line were absent); a well-shaped, non-marker
row whose construction fails, anywhere after a cleanly parsed prefix,
aborts the whole build with that validation error (no table is produced);
and every validation error identifies the offending field name and its
out-of-domain value. -/
theorem malformed_skipped_invalid_field_aborts :
    (∀ (line : List Token) (rest : List (List Token)), lineInts line = none →
      VlanTagOpTable.from_stream (line :: rest) = VlanTagOpTable.from_stream rest)
    ∧ (∀ (pre : List (List Token)) (ops : List VlanTagOp) (line : List Token)
      (vals : List Nat) (rest : List (List Token)) (e : FieldErr),
      parseLines pre = .ok ops →
      lineInts line = some vals → vals.drop 8 ≠ deleteMarker →
      rowToOp vals = .error e →
      VlanTagOpTable.from_stream (pre ++ line :: rest) = .error e)
    ∧ (∀ (op : VlanTagOp) (e : FieldErr), op.validate = .error e →
      fieldGet op e.fieldName = some e.value ∧
        fieldDomainOk e.fieldName e.value = false) := by
  refine ⟨?_, ?_, fun op e h => validate_error_identifies_field h⟩
  · intro line rest hnone
    unfold VlanTagOpTable.from_stream
    simp only [parseLines, hnone]
  · intro pre ops line vals rest e hpre hline hnd hrow
    unfold VlanTagOpTable.from_stream
    rw [parseLines_append_ok pre ops (line :: rest) hpre]
    simp only [parseLines, hline]
    rw [if_neg (by simpa using hnd), hrow]
    rfl

/-- C8 witness: the three behaviours at concrete inputs — a one-token line
is skipped, a row with `f_out_vid = 4095` aborts the build with the error
naming that field and value, and that error points at a real out-of-domain
field. -/
theorem malformed_skipped_invalid_field_aborts_witness :
    VlanTagOpTable.from_stream [[some 1]] = VlanTagOpTable.from_stream []
    ∧ VlanTagOpTable.from_stream [[some 15, some 4095, some 0, some 15,
        some 4096, some 0, some 0, some 0, some 0, some 15, some 4096, some 0,
        some 15, some 4096, some 0]] = .error ⟨"f_out_vid", 4095⟩
    ∧ fieldGet ⟨15, 4095, 0, 15, 4096, 0, 0, 0, 0, 15, 4096, 0, 15, 4096, 0⟩
        (FieldErr.fieldName ⟨"f_out_vid", 4095⟩) =
        some (FieldErr.value ⟨"f_out_vid", 4095⟩)
    ∧ fieldDomainOk (FieldErr.fieldName ⟨"f_out_vid", 4095⟩)
        (FieldErr.value ⟨"f_out_vid", 4095⟩) = false := by
  refine ⟨malformed_skipped_invalid_field_aborts.1 [some 1] [] (by decide),
    malformed_skipped_invalid_field_aborts.2.1 [] []
      [some 15, some 4095, some 0, some 15, some 4096, some 0, some 0, some 0,
        some 0, some 15, some 4096, some 0, some 15, some 4096, some 0]
      [15, 4095, 0, 15, 4096, 0, 0, 0, 0, 15, 4096, 0, 15, 4096, 0]
      [] ⟨"f_out_vid", 4095⟩ (by decide) (by decide) (by decide) (by decide),
    (malformed_skipped_invalid_field_aborts.2.2
      ⟨15, 4095, 0, 15, 4096, 0, 0, 0, 0, 15, 4096, 0, 15, 4096, 0⟩
      ⟨"f_out_vid", 4095⟩ (by decide)).1,
    (malformed_skipped_invalid_field_aborts.2.2
      ⟨15, 4095, 0, 15, 4096, 0, 0, 0, 0, 15, 4096, 0, 15, 4096, 0⟩
      ⟨"f_out_vid", 4095⟩ (by decide)).2⟩

/-! ## Lemmas about frames -/

theorem inner_tag_some {f : EthFrame} (h : f.tags ≠ []) :
    ∃ t, f.inner_tag = some t := by
  unfold EthFrame.inner_tag
  cases hl : f.tags.getLast? with
  | none => exact absurd (List.getLast?_eq_none_iff.mp hl) h
  | some t => exact ⟨t, rfl⟩

theorem outer_tag_some {f : EthFrame} (h : 2 ≤ f.tags.length) :
    ∃ t, f.outer_tag = some t := by
  unfold EthFrame.outer_tag
  cases hl : f.tags.dropLast.getLast? with
  | none =>
    have h2 := List.getLast?_eq_none_iff.mp hl
    have h3 : f.tags.dropLast.length = f.tags.length - 1 := by
      simp [List.length_dropLast]
    rw [h2] at h3
    simp at h3
    omega
  | some t => exact ⟨t, rfl⟩

theorem inner_tag_mem {f : EthFrame} {t : VlanTag} (h : f.inner_tag = some t) :
    t ∈ f.tags :=
  List.mem_of_mem_getLast? h

theorem outer_tag_mem {f : EthFrame} {t : VlanTag} (h : f.outer_tag = some t) :
    t ∈ f.tags :=
  (f.tags.dropLast_sublist).mem (List.mem_of_mem_getLast? h)

theorem is_raw_false_of_two {f : EthFrame} (h : 2 ≤ f.tags.length) :
    f.is_raw = false := by
  rw [EthFrame.is_raw, beq_eq_false_iff_ne]
  omega

theorem is_single_false_of_two {f : EthFrame} (h : 2 ≤ f.tags.length) :
    f.is_single_tagged = false := by
  rw [EthFrame.is_single_tagged, beq_eq_false_iff_ne]
  omega

theorem is_double_true_of_two {f : EthFrame} (h : 2 ≤ f.tags.length) :
    f.is_double_tagged = true := by
  rw [EthFrame.is_double_tagged]
  simpa using h

/-! ## Per-tag check equivalences -/

theorem check_tpid_iff {td : Nat} {tag : VlanTag} {itp : Nat} :
    check_tpid td tag itp = true ↔ tpidMatches td tag itp := by
  unfold check_tpid tpidMatches
  split_ifs with h0 h4 h5 h6 h7
  · have h : td = 0 := by simpa using h0
    subst h; simp
  · have h : td = 4 := by simpa using h4
    subst h; simp [beq_iff_eq]
  · have h : td = 5 := by simpa using h5
    subst h; simp [beq_iff_eq]
  · have h : td = 6 := by simpa using h6
    subst h; simp [Bool.and_eq_true, beq_iff_eq]
  · have h : td = 7 := by simpa using h7
    subst h; simp [Bool.and_eq_true, beq_iff_eq]
  · have n0 : td ≠ 0 := by simpa using h0
    have n4 : td ≠ 4 := by simpa using h4
    have n5 : td ≠ 5 := by simpa using h5
    have n6 : td ≠ 6 := by simpa using h6
    have n7 : td ≠ 7 := by simpa using h7
    simp [n0, n4, n5, n6, n7]

theorem tagChecks_iff {p v td : Nat} {tag : VlanTag} {itp : Nat} :
    tagChecks p v td tag itp = true ↔
      prioMatches p tag ∧ vidMatches v tag ∧ tpidMatches td tag itp := by
  unfold tagChecks
  by_cases hc : check_tpid td tag itp = true
  case neg =>
    rw [if_pos hc]
    simp only [Bool.false_eq_true, false_iff]
    rintro ⟨_, _, ht⟩
    exact hc (check_tpid_iff.mpr ht)
  rw [if_neg (not_not_intro hc)]
  by_cases hp : (decide (p < 8) && (p != tag.pcp)) = true
  case pos =>
    rw [if_pos hp]
    simp only [Bool.and_eq_true, decide_eq_true_eq, bne_iff_ne] at hp
    simp only [Bool.false_eq_true, false_iff]
    rintro ⟨hpm, _, _⟩
    unfold prioMatches at hpm
    rcases hpm with h8 | heq
    · omega
    · exact hp.2 heq
  rw [if_neg hp]
  by_cases hv : (v == 4096 || v == tag.vid) = true
  case pos =>
    rw [if_neg (not_not_intro hv)]
    simp only [true_iff]
    refine ⟨?_, ?_, check_tpid_iff.mp hc⟩
    · simp only [Bool.and_eq_true, decide_eq_true_eq, bne_iff_ne, not_and,
        not_not] at hp
      unfold prioMatches
      by_cases hlt : p < 8
      · exact Or.inr (hp hlt)
      · exact Or.inl (by omega)
    · unfold vidMatches
      simpa [Bool.or_eq_true, beq_iff_eq] using hv
  case neg =>
    rw [if_pos hv]
    simp only [Bool.false_eq_true, false_iff]
    rintro ⟨_, hvm, _⟩
    apply hv
    unfold vidMatches at hvm
    simpa [Bool.or_eq_true, beq_iff_eq] using hvm

/-! ## Case analysis of the matcher by frame shape -/

theorem matches_filter_raw (op : VlanTagOp) (itp : Nat) :
    op.matches_filter ⟨[]⟩ itp = true ↔ op.is_untagged_filter = true := by
  cases h : op.is_untagged_filter <;>
    simp [VlanTagOp.matches_filter, EthFrame.is_raw, EthFrame.is_single_tagged,
      EthFrame.is_double_tagged, h]

theorem matches_filter_single (op : VlanTagOp) (t : VlanTag) (itp : Nat) :
    op.matches_filter ⟨[t]⟩ itp = true ↔
      op.is_single_tagged_filter = true ∧
      tagChecks op.f_in_prio op.f_in_vid op.f_in_tpid t itp = true := by
  have hi : (EthFrame.mk [t]).inner_tag = some t := rfl
  cases h : op.is_single_tagged_filter <;>
    cases hc : tagChecks op.f_in_prio op.f_in_vid op.f_in_tpid t itp <;>
    simp [VlanTagOp.matches_filter, EthFrame.is_raw, EthFrame.is_single_tagged,
      EthFrame.is_double_tagged, hi, h, hc]

theorem matches_filter_double (op : VlanTagOp) (f : EthFrame) (ot it : VlanTag)
    (itp : Nat) (hd : 2 ≤ f.tags.length) (ho : f.outer_tag = some ot)
    (hi : f.inner_tag = some it) :
    op.matches_filter f itp = true ↔
      op.is_double_tagged_filter = true ∧
      tagChecks op.f_out_prio op.f_out_vid op.f_out_tpid ot itp = true ∧
      tagChecks op.f_in_prio op.f_in_vid op.f_in_tpid it itp = true := by
  have h0 := is_raw_false_of_two hd
  have h1 := is_single_false_of_two hd
  have h2 := is_double_true_of_two hd
  cases h : op.is_double_tagged_filter <;>
    cases hco : tagChecks op.f_out_prio op.f_out_vid op.f_out_tpid ot itp <;>
    cases hci : tagChecks op.f_in_prio op.f_in_vid op.f_in_tpid it itp <;>
    simp [VlanTagOp.matches_filter, h0, h1, h2, ho, hi, h, hco, hci]

/-! ## Case analysis of the spec-side predicate by frame shape -/

theorem matchesSpec_raw (op : VlanTagOp) (itp : Nat) :
    matchesSpec op ⟨[]⟩ itp ↔ op.is_untagged_filter = true := by
  unfold matchesSpec classMatches
  simp [EthFrame.is_raw, EthFrame.is_single_tagged, EthFrame.is_double_tagged]

theorem matchesSpec_single (op : VlanTagOp) (t : VlanTag) (itp : Nat) :
    matchesSpec op ⟨[t]⟩ itp ↔
      op.is_single_tagged_filter = true ∧
      (prioMatches op.f_in_prio t ∧ vidMatches op.f_in_vid t ∧
        tpidMatches op.f_in_tpid t itp) := by
  have hi : (EthFrame.mk [t]).inner_tag = some t := rfl
  unfold matchesSpec classMatches
  simp [EthFrame.is_raw, EthFrame.is_single_tagged, EthFrame.is_double_tagged,
    hi]

theorem matchesSpec_double (op : VlanTagOp) (f : EthFrame) (ot it : VlanTag)
    (itp : Nat) (hd : 2 ≤ f.tags.length) (ho : f.outer_tag = some ot)
    (hi : f.inner_tag = some it) :
    matchesSpec op f itp ↔
      op.is_double_tagged_filter = true ∧
      (prioMatches op.f_out_prio ot ∧ vidMatches op.f_out_vid ot ∧
        tpidMatches op.f_out_tpid ot itp) ∧
      (prioMatches op.f_in_prio it ∧ vidMatches op.f_in_vid it ∧
        tpidMatches op.f_in_tpid it itp) := by
  have h0 := is_raw_false_of_two hd
  have h1 := is_single_false_of_two hd
  have h2 := is_double_true_of_two hd
  unfold matchesSpec classMatches
  simp [h0, h1, h2, ho, hi]

/-- C3: `matches_filter` returns `true` exactly when the spec's reading
holds — the tag-count class corresponds to the filter class and every
applicable per-tag check (priority wildcard `≥ 8`, VID wildcard 4096,
TPID/DEI enumeration) passes. -/
theorem matches_filter_iff_spec (op : VlanTagOp) (f : EthFrame) (itp : Nat) :
    op.matches_filter f itp = true ↔ matchesSpec op f itp := by
  rcases f with ⟨tags⟩
  match tags with
  | [] => rw [matches_filter_raw, matchesSpec_raw]
  | [t] => rw [matches_filter_single, matchesSpec_single, tagChecks_iff]
  | a :: b :: rest =>
    have hd : 2 ≤ (EthFrame.mk (a :: b :: rest)).tags.length := by
      simp
    obtain ⟨it, hi⟩ := inner_tag_some (f := ⟨a :: b :: rest⟩) (by simp)
    obtain ⟨ot, ho⟩ := outer_tag_some (f := ⟨a :: b :: rest⟩) hd
    rw [matches_filter_double op _ ot it itp hd ho hi,
      matchesSpec_double op _ ot it itp hd ho hi, tagChecks_iff, tagChecks_iff]

/-! ## Lemmas about tag synthesis and transform -/

theorem wf_tag_of_mem {f : EthFrame} {t : VlanTag} (hwf : f.wf = true)
    (ht : t ∈ f.tags) : t.vid ≤ 4094 ∧ t.pcp ≤ 7 := by
  unfold EthFrame.wf at hwf
  rw [List.all_eq_true] at hwf
  have h := hwf t ht
  unfold VlanTag.wf at h
  simpa [Bool.and_eq_true, decide_eq_true_eq] using h

theorem resolve_vid_le {f : EthFrame} (hwf : f.wf = true) (v : Nat) :
    resolve_vid f v ≤ 4094 := by
  unfold resolve_vid
  split_ifs with h1 h2 h3
  · exact h1
  · cases hi : f.inner_tag with
    | none => simp [hi]
    | some t =>
      simp only [hi]
      exact (wf_tag_of_mem hwf (inner_tag_mem hi)).1
  · cases ho : f.outer_tag with
    | none => simp [ho]
    | some t =>
      simp only [ho]
      exact (wf_tag_of_mem hwf (outer_tag_mem ho)).1
  · omega

theorem resolve_pcp_le {f : EthFrame} (hwf : f.wf = true) (p : Nat) :
    resolve_pcp f p ≤ 7 := by
  unfold resolve_pcp
  split_ifs with h1 h2 h3
  · exact h1
  · cases hi : f.inner_tag with
    | none => simp [hi]
    | some t =>
      simp only [hi]
      exact (wf_tag_of_mem hwf (inner_tag_mem hi)).2
  · cases ho : f.outer_tag with
    | none => simp [ho]
    | some t =>
      simp only [ho]
      exact (wf_tag_of_mem hwf (outer_tag_mem ho)).2
  · omega

theorem mkVlanTag_ok_of_le (vid pcp tp de : Nat) (h1 : vid ≤ 4094)
    (h2 : pcp ≤ 7) : mkVlanTag vid pcp tp de = .ok ⟨vid, pcp, tp, de⟩ := by
  unfold mkVlanTag
  rw [if_neg (not_not_intro h1), if_neg (not_not_intro h2)]

theorem synthTags_eq_ok {op : VlanTagOp} {frame : EthFrame} {otp : Nat}
    (hwf : frame.wf = true) :
    op.synthTags frame otp = .ok (synthList op frame otp) := by
  have hOut := mkVlanTag_ok_of_le (resolve_vid frame op.t_out_vid)
    (resolve_pcp frame op.t_out_prio)
    (resolve_tpid_dei frame otp op.t_out_tpid).1
    (resolve_tpid_dei frame otp op.t_out_tpid).2
    (resolve_vid_le hwf op.t_out_vid) (resolve_pcp_le hwf op.t_out_prio)
  have hIn := mkVlanTag_ok_of_le (resolve_vid frame op.t_in_vid)
    (resolve_pcp frame op.t_in_prio)
    (resolve_tpid_dei frame otp op.t_in_tpid).1
    (resolve_tpid_dei frame otp op.t_in_tpid).2
    (resolve_vid_le hwf op.t_in_vid) (resolve_pcp_le hwf op.t_in_prio)
  unfold VlanTagOp.synthTags synthList
  cases hbo : (op.t_out_prio != 15) <;> cases hbi : (op.t_in_prio != 15) <;>
    simp [hbo, hbi, hOut, hIn, Except.map, Except.bind, bind]

theorem transform_def (op : VlanTagOp) (frame : EthFrame) (otp : Nat) :
    op.transform frame otp =
      if op.is_drop_treatment then .ok none
      else (op.synthTags frame otp).map (fun tags =>
        some ⟨if tags.isEmpty then frame.tags.drop op.tag_rem else tags⟩) := rfl

/-- C7: a rule with `tag_rem = 3` (drop treatment) transforms every frame,
under every output TPID context, to no output frame, whatever the other
treatment fields hold. -/
theorem drop_treatment_always_drops (op : VlanTagOp) (frame : EthFrame)
    (otp : Nat) (h : op.tag_rem = 3) : op.transform frame otp = .ok none := by
  rw [transform_def, if_pos]
  rw [VlanTagOp.is_drop_treatment, h]
  rfl

/-- C7 witness: a concrete drop rule on a concrete frame. -/
theorem drop_treatment_always_drops_witness :
    VlanTagOp.transform ⟨15, 4096, 0, 8, 100, 0, 0, 0, 3, 0, 7, 1, 9, 4097, 2⟩
      ⟨[⟨100, 3, 0x8100, 0⟩]⟩ 0x8100 = .ok none :=
  drop_treatment_always_drops
    ⟨15, 4096, 0, 8, 100, 0, 0, 0, 3, 0, 7, 1, 9, 4097, 2⟩
    ⟨[⟨100, 3, 0x8100, 0⟩]⟩ 0x8100 rfl

/-- C4: for a non-drop rule (`tag_rem ≠ 3`): when both treatment priorities
are 15, the result is the original tag stack with the first `tag_rem` tags
removed; otherwise the result is exactly the synthesized tag list (outer
then inner), and the value of `tag_rem` has no effect on the result. -/
theorem transform_passthrough_or_synthesized (op : VlanTagOp)
    (frame : EthFrame) (otp : Nat) (hwf : frame.wf = true)
    (hnd : op.tag_rem ≠ 3) :
    (op.t_out_prio = 15 ∧ op.t_in_prio = 15 →
      op.transform frame otp = .ok (some ⟨frame.tags.drop op.tag_rem⟩))
    ∧ (¬(op.t_out_prio = 15 ∧ op.t_in_prio = 15) →
      synthList op frame otp ≠ [] ∧
      op.transform frame otp = .ok (some ⟨synthList op frame otp⟩) ∧
      ∀ r, r ≠ 3 →
        (setTagRem op r).transform frame otp = op.transform frame otp) := by
  have hdrop : op.is_drop_treatment = false := by
    rw [VlanTagOp.is_drop_treatment]
    exact beq_eq_false_iff_ne.mpr hnd
  constructor
  · rintro ⟨h1, h2⟩
    have hsl : synthList op frame otp = [] := by
      unfold synthList
      rw [h1, h2]
      simp
    rw [transform_def, synthTags_eq_ok hwf, hsl]
    simp [hdrop, Except.map]
  · intro hns
    have hsl : synthList op frame otp ≠ [] := by
      unfold synthList
      intro hc
      rcases List.append_eq_nil.mp hc with ⟨ha, hb⟩
      apply hns
      constructor
      · by_contra h15
        rw [if_pos (bne_iff_ne.mpr h15)] at ha
        cases ha
      · by_contra h15
        rw [if_pos (bne_iff_ne.mpr h15)] at hb
        cases hb
    have hfalse : (synthList op frame otp).isEmpty = false := by
      cases hl : synthList op frame otp with
      | nil => exact absurd hl hsl
      | cons a l => rfl
    refine ⟨hsl, ?_, ?_⟩
    · rw [transform_def, synthTags_eq_ok hwf]
      simp [hdrop, Except.map, hfalse]
    · intro r hr
      have hdrop2 : (setTagRem op r).is_drop_treatment = false := by
        rw [VlanTagOp.is_drop_treatment]
        exact beq_eq_false_iff_ne.mpr hr
      have hsl2 : synthList (setTagRem op r) frame otp =
          synthList op frame otp := rfl
      have hsynth2 : (setTagRem op r).synthTags frame otp =
          op.synthTags frame otp := rfl
      rw [transform_def, transform_def, hsynth2]
      simp [hdrop, hdrop2, synthTags_eq_ok hwf, Except.map, hfalse]

/-- C4 witness: pass-through with `tag_rem = 1` on a single-tagged frame,
and synthesis (ignoring `tag_rem`) for an inner-copy rule, at concrete
inputs. -/
theorem transform_passthrough_or_synthesized_witness :
    VlanTagOp.transform ⟨15, 4096, 0, 15, 4096, 0, 0, 0, 1, 15, 4096, 0, 15,
        4096, 0⟩ ⟨[⟨100, 3, 0x8100, 0⟩]⟩ 0x8100 =
      .ok (some ⟨(([⟨100, 3, 0x8100, 0⟩] : List VlanTag)).drop 1⟩)
    ∧ synthList ⟨15, 4096, 0, 8, 100, 0, 0, 0, 0, 15, 4096, 0, 8, 4096, 0⟩
        ⟨[⟨100, 3, 0x8100, 0⟩]⟩ 0x8100 ≠ []
    ∧ VlanTagOp.transform ⟨15, 4096, 0, 8, 100, 0, 0, 0, 0, 15, 4096, 0, 8,
        4096, 0⟩ ⟨[⟨100, 3, 0x8100, 0⟩]⟩ 0x8100 =
      .ok (some ⟨synthList ⟨15, 4096, 0, 8, 100, 0, 0, 0, 0, 15, 4096, 0, 8,
        4096, 0⟩ ⟨[⟨100, 3, 0x8100, 0⟩]⟩ 0x8100⟩)
    ∧ (setTagRem ⟨15, 4096, 0, 8, 100, 0, 0, 0, 0, 15, 4096, 0, 8, 4096, 0⟩
        1).transform ⟨[⟨100, 3, 0x8100, 0⟩]⟩ 0x8100 =
      VlanTagOp.transform ⟨15, 4096, 0, 8, 100, 0, 0, 0, 0, 15, 4096, 0, 8,
        4096, 0⟩ ⟨[⟨100, 3, 0x8100, 0⟩]⟩ 0x8100 := by
  have ha := transform_passthrough_or_synthesized
    ⟨15, 4096, 0, 15, 4096, 0, 0, 0, 1, 15, 4096, 0, 15, 4096, 0⟩
    ⟨[⟨100, 3, 0x8100, 0⟩]⟩ 0x8100 (by decide) (by decide)
  have hb := transform_passthrough_or_synthesized
    ⟨15, 4096, 0, 8, 100, 0, 0, 0, 0, 15, 4096, 0, 8, 4096, 0⟩
    ⟨[⟨100, 3, 0x8100, 0⟩]⟩ 0x8100 (by decide) (by decide)
  have hb2 := hb.2 (by decide)
  exact ⟨ha.1 ⟨rfl, rfl⟩, hb2.1, hb2.2.1, hb2.2.2 1 (by decide)⟩

/-- C10: for a valid rule and a frame of well-formed tags, `transform`
never fails: every resolved VID is in 0-4094 and every resolved PCP in 0-7
(so the `VlanTag` constructions inside `transform` always validate), and
the pass-through slice is well-defined, yielding the empty stack whenever
`tag_rem` is at least the number of tags. -/
theorem transform_never_fails (op : VlanTagOp) (frame : EthFrame) (otp : Nat)
    (_hval : op.validate = .ok op) (hwf : frame.wf = true) :
    (∃ r, op.transform frame otp = .ok r)
    ∧ (∀ v, resolve_vid frame v ≤ 4094)
    ∧ (∀ p, resolve_pcp frame p ≤ 7)
    ∧ (∀ k, frame.tags.length ≤ k → frame.tags.drop k = []) := by
  refine ⟨?_, fun v => resolve_vid_le hwf v, fun p => resolve_pcp_le hwf p,
    fun k hk => List.drop_eq_nil_of_le hk⟩
  by_cases hd : op.is_drop_treatment = true
  · exact ⟨none, by rw [transform_def, if_pos hd]⟩
  · refine ⟨some ⟨if (synthList op frame otp).isEmpty then
        frame.tags.drop op.tag_rem else synthList op frame otp⟩, ?_⟩
    rw [transform_def, if_neg hd, synthTags_eq_ok hwf]
    rfl

/-- C10 witness: the totality facts at a concrete valid rule and frame. -/
theorem transform_never_fails_witness :
    (∃ r, VlanTagOp.transform ⟨15, 4096, 0, 8, 100, 0, 0, 0, 0, 15, 4096, 0,
        8, 4096, 0⟩ ⟨[⟨100, 3, 0x8100, 0⟩]⟩ 0x8100 = .ok r)
    ∧ resolve_vid ⟨[⟨100, 3, 0x8100, 0⟩]⟩ 4096 ≤ 4094
    ∧ resolve_pcp ⟨[⟨100, 3, 0x8100, 0⟩]⟩ 8 ≤ 7
    ∧ (EthFrame.mk [⟨100, 3, 0x8100, 0⟩]).tags.drop 3 = [] := by
  have h := transform_never_fails
    ⟨15, 4096, 0, 8, 100, 0, 0, 0, 0, 15, 4096, 0, 8, 4096, 0⟩
    ⟨[⟨100, 3, 0x8100, 0⟩]⟩ 0x8100 (by decide) (by decide)
  exact ⟨h.1, h.2.1 4096, h.2.2.1 8, h.2.2.2 3 (by decide)⟩

/-! ## Lemmas about table lookup -/

theorem processList_eq_find (frame : EthFrame) : ∀ (l : List VlanTagOp),
    processList frame l =
      (l.find? (fun op => op.matches_filter frame 0x8100)).elim
        (Except.ok none) (fun op => op.transform frame 0x8100)
  | [] => rfl
  | op :: rest => by
    simp only [processList, List.find?]
    cases h : op.matches_filter frame 0x8100 with
    | true => simp [h]
    | false => simp [h, processList_eq_find frame rest]

/-- C5: `process_frame` returns the transform of the first rule (in table
order) whose filter matches, and no output frame when none matches; in
particular an empty stream yields the empty table, which drops every
frame. -/
theorem process_frame_first_match (t : VlanTagOpTable) (frame : EthFrame) :
    t.process_frame frame =
      (t.ops.find? (fun op => op.matches_filter frame 0x8100)).elim
        (Except.ok none) (fun op => op.transform frame 0x8100)
    ∧ (VlanTagOpTable.init []).process_frame frame = .ok none
    ∧ VlanTagOpTable.from_stream [] = .ok (VlanTagOpTable.init []) :=
  ⟨processList_eq_find frame t.ops, rfl, rfl⟩

/-- C9: a transparent-treatment rule transforms every matching frame of at
most two well-formed tags into an identical frame (same VIDs, PCPs, TPIDs
and DEIs), for every input and output TPID context. -/
theorem transparent_treatment_identity (op : VlanTagOp) (frame : EthFrame)
    (itp otp : Nat) (htr : op.is_transparent_treatment = true)
    (hwf : frame.wf = true) (hlen : frame.tags.length <= 2)
    (hm : op.matches_filter frame itp = true) :
    op.transform frame otp = .ok (some frame) := by
  have h0 : op.tag_rem = 0 := by
    by_contra hc
    rw [VlanTagOp.is_transparent_treatment, if_pos (bne_iff_ne.mpr hc)] at htr
    cases htr
  have hb0 : (op.tag_rem != 0) = false := by
    rw [h0]; rfl
  rw [VlanTagOp.is_transparent_treatment, hb0] at htr
  simp only [Bool.false_eq_true, if_false] at htr
  have hdrop : op.is_drop_treatment = false := by
    rw [VlanTagOp.is_drop_treatment, h0]; rfl
  rcases frame with ⟨tags⟩
  rcases tags with _ | ⟨t, _ | ⟨u, rest⟩⟩
  · have hu := (matches_filter_raw op itp).mp hm
    rw [if_pos hu] at htr
    simp only [Bool.and_eq_true, beq_iff_eq] at htr
    have hsl : synthList op ⟨[]⟩ otp = [] := by
      unfold synthList
      rw [htr.1, htr.2]
      simp
    rw [transform_def, if_neg (by simp [hdrop]), synthTags_eq_ok hwf, hsl]
    simp [Except.map]
  · obtain ⟨hs, _⟩ := (matches_filter_single op t itp).mp hm
    have hu : op.is_untagged_filter = false := by
      simp only [VlanTagOp.is_single_tagged_filter, Bool.and_eq_true,
        beq_iff_eq, bne_iff_ne] at hs
      simp [VlanTagOp.is_untagged_filter, hs.1, hs.2]
    rw [if_neg (by simp [hu]), if_pos hs] at htr
    simp only [Bool.and_eq_true, beq_iff_eq, and_assoc] at htr
    obtain ⟨ho15, hi8, hiv, hitp⟩ := htr
    have hit : EthFrame.inner_tag ⟨[t]⟩ = some t := rfl
    have hsl : synthList op ⟨[t]⟩ otp = [t] := by
      unfold synthList
      rw [ho15, hi8, hiv, hitp]
      simp [resolve_vid, resolve_pcp, resolve_tpid_dei, hit]
    rw [transform_def, if_neg (by simp [hdrop]), synthTags_eq_ok hwf, hsl]
    simp [Except.map]
  · have hrest : rest = [] := by
      simp only [List.length_cons] at hlen
      have hr0 : rest.length = 0 := by omega
      exact List.length_eq_zero.mp hr0
    subst hrest
    have hd2 : 2 <= (EthFrame.mk [t, u]).tags.length := by simp
    have hot : EthFrame.outer_tag ⟨[t, u]⟩ = some t := rfl
    have hit : EthFrame.inner_tag ⟨[t, u]⟩ = some u := rfl
    obtain ⟨hdbl, _, _⟩ :=
      (matches_filter_double op ⟨[t, u]⟩ t u itp hd2 hot hit).mp hm
    have hne : op.f_out_prio ≠ 15 := by
      simpa [VlanTagOp.is_double_tagged_filter, bne_iff_ne] using hdbl
    have hu : op.is_untagged_filter = false := by
      simp [VlanTagOp.is_untagged_filter, beq_eq_false_iff_ne.mpr hne]
    have hs : op.is_single_tagged_filter = false := by
      simp [VlanTagOp.is_single_tagged_filter, beq_eq_false_iff_ne.mpr hne]
    rw [if_neg (by simp [hu]), if_neg (by simp [hs]), if_pos hdbl] at htr
    simp only [Bool.and_eq_true, beq_iff_eq, and_assoc] at htr
    obtain ⟨ho9, hov, hotp, hi8, hiv, hitp⟩ := htr
    have hsl : synthList op ⟨[t, u]⟩ otp = [t, u] := by
      unfold synthList
      rw [ho9, hov, hotp, hi8, hiv, hitp]
      simp [resolve_vid, resolve_pcp, resolve_tpid_dei, hot, hit]
    rw [transform_def, if_neg (by simp [hdrop]), synthTags_eq_ok hwf, hsl]
    simp [Except.map]

/-- C9 witness: the Scenario A instance — the transparent single-tag rule
`(15,4096,0, 8,100,0, 0,0, 0, 15,4096,0, 8,4096,0)` maps the matching
single-tagged frame `{vid 100, pcp 3, tpid 0x8100, dei 0}` to itself. -/
theorem transparent_treatment_identity_witness :
    VlanTagOp.transform ⟨15, 4096, 0, 8, 100, 0, 0, 0, 0, 15, 4096, 0, 8,
        4096, 0⟩ ⟨[⟨100, 3, 0x8100, 0⟩]⟩ 0x8100 =
      .ok (some ⟨[⟨100, 3, 0x8100, 0⟩]⟩) :=
  transparent_treatment_identity
    ⟨15, 4096, 0, 8, 100, 0, 0, 0, 0, 15, 4096, 0, 8, 4096, 0⟩
    ⟨[⟨100, 3, 0x8100, 0⟩]⟩ 0x8100 0x8100 (by decide) (by decide) (by decide)
    (by decide)

end ExtVlan
